import Mathlib

/-!
Verification of the Node-Farm HTTP server (`new.js`) against its
natural-language specification.

Strings are modelled as `List Char` (`Str` below).  The JavaScript string
operations the program uses are embedded as structurally recursive Lean
functions so that concrete instances evaluate by `decide` / `rfl`:

* `replaceFirst` models `String.prototype.replace` with a string pattern
  (first occurrence only), as used for the overview template;
* `replaceAll` models a global (left-to-right, non-overlapping) replacement
  of every occurrence of a fixed pattern, as the spec's contract for the
  template renderer requires.

The `$`-pattern expansion JavaScript performs inside replacement strings is
not modelled: replacements are inserted verbatim, which is the behaviour the
spec describes.

The module `./modules/replaceTemplate` required at `new.js` line 7 is not
among the repository sources; `replaceTemplate` below is modelled from the
spec's contract (section 4.1) and is marked as such in its doc comment.
-/

namespace NodeFarm

/-- Character-list strings: the carrier of the embedding. -/
abbrev Str := List Char

/-- The opening brace character of a placeholder token. -/
def openBrace : Char := '\x7b'

/-- The percent character of a placeholder token. -/
def pctChar : Char := '%'

/-- The closing brace character of a placeholder token. -/
def closeBrace : Char := '\x7d'

/-- The placeholder token for field `f`, i.e. the five-plus characters
`\x7b%f%\x7d`. -/
def placeholder (f : Str) : Str :=
  openBrace :: pctChar :: (f ++ [pctChar, closeBrace])

/-- Worker for `replaceAll`.  While `skip` is positive the next characters
belong to an already-replaced occurrence and are dropped; at `skip = 0` a
match of `p` at the current position emits `r` and schedules the remaining
`p.length - 1` matched characters for dropping.  Structural recursion on the
string keeps every application kernel-reducible. -/
def replaceAllGo (p r : Str) : Nat → Str → Str
  | _, [] => []
  | n + 1, _ :: rest => replaceAllGo p r n rest
  | 0, c :: rest =>
    if p.isPrefixOf (c :: rest) then r ++ replaceAllGo p r (p.length - 1) rest
    else c :: replaceAllGo p r 0 rest

/-- Replace every left-to-right, non-overlapping occurrence of `p` in `s`
by `r`, inserted verbatim. -/
def replaceAll (p r s : Str) : Str :=
  replaceAllGo p r 0 s

/-- JavaScript `String.prototype.replace` with a string pattern: replace the
first occurrence of `p` in `s` by `r`, inserted verbatim; if `p` does not
occur, return `s` unchanged. -/
def replaceFirst (p r : Str) : Str → Str
  | [] => []
  | c :: rest =>
    if p.isPrefixOf (c :: rest) then r ++ rest.drop (p.length - 1)
    else c :: replaceFirst p r rest

/-- Boolean substring occurrence: `occursInB p s` holds iff `p` occurs as a
contiguous substring of `s`. -/
def occursInB (p : Str) : Str → Bool
  | [] => p.isPrefixOf []
  | c :: rest => p.isPrefixOf (c :: rest) || occursInB p rest

/-- A record: the untyped field-name / value pairs of one product entry, in
object order, field names already in the uppercased placeholder convention. -/
abbrev Record := List (Str × Str)

/-- The field names of a record. -/
def fieldNames (r : Record) : List Str := r.map Prod.fst

/-- Modelled from the spec: the module `./modules/replaceTemplate` required
at `new.js` line 7 is not among the repository sources.  Per the spec's
contract (section 4.1) the renderer returns a new string in which every
occurrence of `\x7b%FIELD_NAME%\x7d` for a field present in the record is
replaced by that field's value converted to text, and placeholders whose
field is absent are left verbatim, processing the record's fields in order. -/
def replaceTemplate (temp : Str) (rec : Record) : Str :=
  rec.foldl (fun acc fv => replaceAll (placeholder fv.1) fv.2 acc) temp

/-- Modelled from the spec: rendering a template against the undefined
record produced by an out-of-range or malformed index lookup ("an
undefined-record render").  The undefined record exposes no fields, so every
placeholder is left verbatim. -/
def undefinedRender (temp : Str) : Str :=
  replaceTemplate temp []

/-- The state the server holds after start-up: the three templates read at
`new.js` lines 56-58, the raw JSON text `data` read at line 62 and the
parsed record list `dataObj` of line 63. -/
structure ServerState where
  tempOverview : Str
  tempCard : Str
  tempProduct : Str
  data : Str
  dataObj : List Record

/-- The parsed query string of a request: the `id` parameter as produced by
`url.parse(req.url, true)`, i.e. a string when present. -/
structure Query where
  id : Option Str

/-- A finished HTTP response: the status code and headers passed to
`res.writeHead` and the body passed to `res.end`. -/
structure Response where
  status : Nat
  headers : List (Str × Str)
  body : Str

/-- Decimal value of a digit character. -/
def digitVal (c : Char) : Nat := c.toNat - 48

/-- Numeric value of a digit string. -/
def natOfDigits (s : Str) : Nat := s.foldl (fun n c => 10 * n + digitVal c) 0

/-- JavaScript array-index semantics for a property-name string: the string
denotes an array index exactly when it is the canonical decimal numeral of a
natural number ("0", or digits without a leading zero); any other string is
not an index of the array and the access yields `undefined`. -/
def canonicalIndex (s : Str) : Option Nat :=
  if s = ['0'] then some 0
  else if s ≠ [] ∧ (∀ c ∈ s, c.isDigit) ∧ s.head? ≠ some '0' then some (natOfDigits s)
  else none

/-- The lookup `dataObj[query.id]` of `new.js` line 113: a missing `id`
parameter or a non-index string yields `undefined` (`none`), an index string
yields the element at that position when it exists. -/
def jsIndex (arr : List Record) (idv : Option Str) : Option Record :=
  match idv with
  | none => none
  | some s =>
    match canonicalIndex s with
    | none => none
    | some n => arr[n]?

/-- The fixed 404 body of `new.js` line 132. -/
def notFoundBody : Str := "<h1>Page not found</h1>".data

/-- The request handler of `new.js` lines 65-134, as a function of the
parsed `pathname` and `query`: the four-branch `if`/`else if` chain on the
exact pathname. -/
def handler (st : ServerState) (pathname : Str) (q : Query) : Response :=
  if pathname = "/".data ∨ pathname = "/overview".data then
    let cardsHtml := (st.dataObj.map fun el => replaceTemplate st.tempCard el).flatten
    let output := replaceFirst "\x7b%PRODUCT_CARDS%\x7d".data cardsHtml st.tempOverview
    { status := 200, headers := [("content-type".data, "text/html".data)], body := output }
  else if pathname = "/product".data then
    let output :=
      match jsIndex st.dataObj q.id with
      | some rec => replaceTemplate st.tempProduct rec
      | none => undefinedRender st.tempProduct
    { status := 200, headers := [("content-type".data, "text/html".data)], body := output }
  else if pathname = "/api".data then
    { status := 200, headers := [("content-type".data, "application/json".data)],
      body := st.data }
  else
    { status := 404,
      headers := [("content-type".data, "text/html".data),
                  ("my-own-header".data, "hello-world".data)],
      body := notFoundBody }

/-- The four documented routing outcomes. -/
inductive RouteOutcome
  | overview
  | product
  | api
  | notFound
deriving DecidableEq

/-- Which pathnames each documented outcome covers, by exact string match:
overview for `/` or `/overview`, product for `/product`, api for `/api`,
and the 404 fallback for everything else. -/
def matchesRoute (p : Str) : RouteOutcome → Prop
  | .overview => p = "/".data ∨ p = "/overview".data
  | .product => p = "/product".data
  | .api => p = "/api".data
  | .notFound =>
      p ≠ "/".data ∧ p ≠ "/overview".data ∧ p ≠ "/product".data ∧ p ≠ "/api".data

/-- The outcome the handler's `if`/`else if` chain selects for a pathname. -/
def routeOf (p : Str) : RouteOutcome :=
  if p = "/".data ∨ p = "/overview".data then .overview
  else if p = "/product".data then .product
  else if p = "/api".data then .api
  else .notFound

/-- The response each outcome produces, factored out of the handler. -/
def outcomeResponse (st : ServerState) (q : Query) : RouteOutcome → Response
  | .overview =>
    { status := 200, headers := [("content-type".data, "text/html".data)],
      body := replaceFirst "\x7b%PRODUCT_CARDS%\x7d".data
        ((st.dataObj.map fun el => replaceTemplate st.tempCard el).flatten) st.tempOverview }
  | .product =>
    { status := 200, headers := [("content-type".data, "text/html".data)],
      body :=
        match jsIndex st.dataObj q.id with
        | some rec => replaceTemplate st.tempProduct rec
        | none => undefinedRender st.tempProduct }
  | .api =>
    { status := 200, headers := [("content-type".data, "application/json".data)],
      body := st.data }
  | .notFound =>
    { status := 404,
      headers := [("content-type".data, "text/html".data),
                  ("my-own-header".data, "hello-world".data)],
      body := notFoundBody }

/-- A parsed request: the pathname and query produced by
`url.parse(req.url, true)`. -/
structure Request where
  pathname : Str
  query : Query

/-- One invocation of the request handler as a state transition: the source
handler only reads the module-level `const` bindings (`tempOverview`,
`tempCard`, `tempProduct`, `data`, `dataObj`) and never assigns to them, so
the state component is returned unchanged. -/
def step (st : ServerState) (r : Request) : ServerState × Response :=
  (st, handler st r.pathname r.query)

/-- Process a request sequence in order, threading the server state and
collecting the responses. -/
def processAll (st : ServerState) : List Request → ServerState × List Response
  | [] => (st, [])
  | r :: rs =>
    let (st1, resp) := step st r
    let (st2, resps) := processAll st1 rs
    (st2, resp :: resps)

/-- A file system snapshot for modelling start-up: file path to contents. -/
abbrev FS := String → Option Str

/-- The files `new.js` reads synchronously before the server is created:
lines 15-16 (`input.txt`, `append.txt`), lines 56-58 (the three templates)
and line 62 (`data.json`).  A `readFileSync` failure throws and aborts the
process. -/
def syncStartupFiles : List String :=
  ["txt/input.txt", "txt/append.txt", "templates/template-overview.html",
   "templates/template-card.html", "templates/template-product.html",
   "dev-data/data.json"]

/-- The synchronous start-up reads, in source order; `none` means some
`readFileSync` threw and the process aborted before serving. -/
def readAllSync (fsys : FS) : Option (Str × Str × Str × Str × Str × Str) :=
  match fsys "txt/input.txt" with
  | none => none
  | some ti =>
    match fsys "txt/append.txt" with
    | none => none
    | some ta =>
      match fsys "templates/template-overview.html" with
      | none => none
      | some tov =>
        match fsys "templates/template-card.html" with
        | none => none
        | some tc =>
          match fsys "templates/template-product.html" with
          | none => none
          | some tp =>
            match fsys "dev-data/data.json" with
            | none => none
            | some d => some (ti, ta, tov, tc, tp, d)

/-- The asynchronous text pipeline of `new.js` lines 28-50, as the sequence
of console messages its callbacks produce: each read error is logged as
`error!` and ends the chain; on success the two file contents and the final
`File written!` message are logged. -/
def asyncPipeline (fsys : FS) : List String :=
  match fsys "txt/start.txt" with
  | none => ["error!"]
  | some d =>
    match fsys ("txt/" ++ String.mk d ++ ".txt") with
    | none => ["error!"]
    | some d2 =>
      match fsys "txt/append.txt" with
      | none => [String.mk d2, "error!"]
      | some d3 => [String.mk d2, String.mk d3, "File written!"]

/-- The observable outcome of process start-up: the server state when the
process reaches `server.listen` (or `none` if a synchronous read aborted
it), and the log of the asynchronous text pipeline. -/
structure StartupOutcome where
  serving : Option ServerState
  pipelineLog : List String

/-- Process start-up: the synchronous reads run first and any failure among
them aborts the process (no async callback has run yet, so the pipeline log
is empty); otherwise the server state is built from the read contents
(`parseJson` standing for `JSON.parse`) and the asynchronous pipeline's
callbacks run from the event loop. -/
def startup (fsys : FS) (parseJson : Str → List Record) : StartupOutcome :=
  match readAllSync fsys with
  | none => { serving := none, pipelineLog := [] }
  | some (_, _, tov, tc, tp, d) =>
    { serving := some
        { tempOverview := tov, tempCard := tc, tempProduct := tp,
          data := d, dataObj := parseJson d },
      pipelineLog := asyncPipeline fsys }

/-- A field name is legal for the placeholder convention when it is nonempty
and contains none of the three token delimiter characters. -/
def legalName (f : Str) : Bool :=
  decide (f ≠ []) && f.all fun c => c ≠ openBrace && c ≠ pctChar && c ≠ closeBrace

/-- A template segment: a literal chunk or a placeholder for a field. -/
inductive Seg
  | lit (l : Str)
  | ph (f : Str)
deriving DecidableEq

/-- Flatten a segment list back into the template string it denotes. -/
def segRender : List Seg → Str
  | [] => []
  | .lit l :: rest => l ++ segRender rest
  | .ph f :: rest => placeholder f ++ segRender rest

/-- Well-formedness of a segment list: literal chunks contain no opening
brace and placeholder names are legal.  A template is well formed when it is
the rendering of such a segment list; every opening brace in it then starts
a complete placeholder token. -/
def segsOk (segs : List Seg) : Bool :=
  segs.all fun s =>
    match s with
    | .lit l => l.all fun c => c ≠ openBrace
    | .ph f => legalName f

/-- Substituting one field into a segment: the placeholder for that field
becomes the literal value, everything else is unchanged. -/
def subst1 (f v : Str) : Seg → Seg
  | .ph g => if g = f then .lit v else .ph g
  | .lit l => .lit l

/-- Substituting a record into a segment list: each placeholder segment for
a field of the record becomes the literal value of the first matching field
processed, in field order; placeholders of absent fields stay verbatim. -/
def stripFields (rec : Record) (segs : List Seg) : List Seg :=
  rec.foldl (fun acc fv => acc.map (subst1 fv.1 fv.2)) segs

/-- The placeholder field names a segment list mentions. -/
def phNames (segs : List Seg) : List Str :=
  segs.filterMap fun s =>
    match s with
    | .ph g => some g
    | .lit _ => none

/-- A sample record used to instantiate universally quantified theorems. -/
def sampleRecord : Record :=
  [("PRODUCTNAME".data, "Avocado".data), ("PRICE".data, "6.50".data)]

/-- A sample server state used to instantiate universally quantified
theorems. -/
def sampleState : ServerState where
  tempOverview := "<html>\x7b%PRODUCT_CARDS%\x7d</html>".data
  tempCard := "<div>\x7b%PRODUCTNAME%\x7d</div>".data
  tempProduct := "<h2>\x7b%PRODUCTNAME%\x7d: \x7b%PRICE%\x7d</h2>".data
  data := "[ product data ]".data
  dataObj := [sampleRecord]

/-- The template of the template-renderer counterexample: the single
placeholder for field `A`. -/
def cexSegs : List Seg := [Seg.ph ['A']]

/-- The record of the template-renderer counterexample: its one field `A`
has the placeholder token for `A` itself as value. -/
def cexRecord : Record := [(['A'], placeholder ['A'])]

/-- A file-system snapshot in which every file is present. -/
def fsysAll : FS := fun _ => some "x".data

/-- A file-system snapshot in which only the asynchronous text pipeline's
first file, `txt/start.txt`, is missing. -/
def fsysNoStart : FS := fun name =>
  if name = "txt/start.txt" then none else some "x".data

/-- A file-system snapshot in which only the synchronously read card
template is missing. -/
def fsysNoCard : FS := fun name =>
  if name = "templates/template-card.html" then none else some "x".data

theorem handler_root (st : ServerState) (q : Query) :
    handler st "/".data q =
      { status := 200, headers := [("content-type".data, "text/html".data)],
        body := replaceFirst "\x7b%PRODUCT_CARDS%\x7d".data
          ((st.dataObj.map fun el => replaceTemplate st.tempCard el).flatten)
          st.tempOverview } := by
  unfold handler
  rw [if_pos (Or.inl rfl)]

theorem handler_overview (st : ServerState) (q : Query) :
    handler st "/overview".data q =
      { status := 200, headers := [("content-type".data, "text/html".data)],
        body := replaceFirst "\x7b%PRODUCT_CARDS%\x7d".data
          ((st.dataObj.map fun el => replaceTemplate st.tempCard el).flatten)
          st.tempOverview } := by
  unfold handler
  rw [if_pos (Or.inr rfl)]

theorem handler_product (st : ServerState) (q : Query) :
    handler st "/product".data q =
      { status := 200, headers := [("content-type".data, "text/html".data)],
        body :=
          match jsIndex st.dataObj q.id with
          | some rec => replaceTemplate st.tempProduct rec
          | none => undefinedRender st.tempProduct } := by
  unfold handler
  rw [if_neg (by decide), if_pos rfl]

theorem handler_api (st : ServerState) (q : Query) :
    handler st "/api".data q =
      { status := 200, headers := [("content-type".data, "application/json".data)],
        body := st.data } := by
  unfold handler
  rw [if_neg (by decide), if_neg (by decide), if_pos rfl]

theorem handler_fallback (st : ServerState) (q : Query) (p : Str)
    (h1 : p ≠ "/".data) (h2 : p ≠ "/overview".data)
    (h3 : p ≠ "/product".data) (h4 : p ≠ "/api".data) :
    handler st p q =
      { status := 404,
        headers := [("content-type".data, "text/html".data),
                    ("my-own-header".data, "hello-world".data)],
        body := notFoundBody } := by
  unfold handler
  rw [if_neg (not_or.mpr ⟨h1, h2⟩), if_neg h3, if_neg h4]

/-- Claim C2: every request with pathname `/api` is answered with status 200,
content-type `application/json` and the raw stored JSON text `data` as the
body; the body in particular does not depend on the parsed object
`dataObj`, so it is never a re-serialization of it. -/
theorem api_serves_raw_json (st : ServerState) (q : Query) (dObj2 : List Record) :
    handler st "/api".data q =
      { status := 200, headers := [("content-type".data, "application/json".data)],
        body := st.data } ∧
    (handler { st with dataObj := dObj2 } "/api".data q).body = st.data := by
  refine ⟨handler_api st q, ?_⟩
  rw [handler_api { st with dataObj := dObj2 } q]

/-- Claim C3: every request with pathname `/` or `/overview` is answered with
status 200, content-type `text/html`, and a body equal to the overview
template with the `\x7b%PRODUCT_CARDS%\x7d` placeholder replaced by the
concatenation, in load order, of the card template rendered once per loaded
record. -/
theorem overview_renders_all_cards (st : ServerState) (q : Query) :
    handler st "/".data q =
      { status := 200, headers := [("content-type".data, "text/html".data)],
        body := replaceFirst "\x7b%PRODUCT_CARDS%\x7d".data
          ((st.dataObj.map fun el => replaceTemplate st.tempCard el).flatten)
          st.tempOverview } ∧
    handler st "/overview".data q = handler st "/".data q :=
  ⟨handler_root st q, (handler_overview st q).trans (handler_root st q).symm⟩

/-- Claim C5: every request whose pathname is none of `/`, `/overview`,
`/product`, `/api` is answered with status 404, content-type `text/html`,
the custom header `my-own-header: hello-world`, and the fixed literal body
`<h1>Page not found</h1>`. -/
theorem unmatched_route_404 (st : ServerState) (q : Query) (p : Str)
    (h1 : p ≠ "/".data) (h2 : p ≠ "/overview".data)
    (h3 : p ≠ "/product".data) (h4 : p ≠ "/api".data) :
    handler st p q =
      { status := 404,
        headers := [("content-type".data, "text/html".data),
                    ("my-own-header".data, "hello-world".data)],
        body := notFoundBody } ∧ notFoundBody = "<h1>Page not found</h1>".data :=
  ⟨handler_fallback st q p h1 h2 h3 h4, rfl⟩

/-- Witness for C5 at the concrete request `/does-not-exist`. -/
theorem unmatched_route_404_witness :
    ("/does-not-exist".data ≠ ("/".data : Str)) ∧
    ("/does-not-exist".data ≠ ("/overview".data : Str)) ∧
    ("/does-not-exist".data ≠ ("/product".data : Str)) ∧
    ("/does-not-exist".data ≠ ("/api".data : Str)) ∧
    handler sampleState "/does-not-exist".data { id := none } =
      { status := 404,
        headers := [("content-type".data, "text/html".data),
                    ("my-own-header".data, "hello-world".data)],
        body := notFoundBody } :=
  ⟨by decide, by decide, by decide, by decide,
    (unmatched_route_404 sampleState { id := none } "/does-not-exist".data
      (by decide) (by decide) (by decide) (by decide)).1⟩

/-- Claim C7: template rendering is a pure function of the template and the
record: equal inputs give byte-identical output. -/
theorem render_deterministic (t t2 : Str) (rec rec2 : Record)
    (ht : t = t2) (hrec : rec = rec2) :
    replaceTemplate t rec = replaceTemplate t2 rec2 := by
  rw [ht, hrec]

/-- Witness for C7 at a concrete template and record. -/
theorem render_deterministic_witness :
    sampleState.tempCard = sampleState.tempCard ∧
    (sampleRecord = sampleRecord) ∧
    replaceTemplate sampleState.tempCard sampleRecord =
      replaceTemplate sampleState.tempCard sampleRecord :=
  ⟨rfl, rfl, render_deterministic _ _ _ _ rfl rfl⟩

/-- Claim C9: request handling never mutates the start-up state: processing any
request sequence returns the state unchanged, and every response is
computed against the original start-up state. -/
theorem state_immutable_across_requests (st : ServerState) (reqs : List Request) :
    (processAll st reqs).1 = st ∧
    (processAll st reqs).2 = reqs.map fun r => handler st r.pathname r.query := by
  induction reqs with
  | nil => exact ⟨rfl, rfl⟩
  | cons r rs ih =>
    refine ⟨?_, ?_⟩ <;> simp [processAll, step, ih.1, ih.2]

/-- Claim C10: on the `/product` route the status and headers are fixed before
the record lookup: they are 200 and `text/html` for every query, identical
across queries, and never 400 or 404. -/
theorem product_head_written_first (st : ServerState) (q q2 : Query) :
    (handler st "/product".data q).status = 200 ∧
    (handler st "/product".data q).headers = [("content-type".data, "text/html".data)] ∧
    (handler st "/product".data q).status = (handler st "/product".data q2).status ∧
    (handler st "/product".data q).headers = (handler st "/product".data q2).headers ∧
    (handler st "/product".data q).status ≠ 400 ∧
    (handler st "/product".data q).status ≠ 404 := by
  rw [handler_product st q, handler_product st q2]
  exact ⟨rfl, rfl, rfl, rfl, (by decide : (200 : Nat) ≠ 400),
    (by decide : (200 : Nat) ≠ 404)⟩

/-- Claim C4: the `/product` branch performs the index lookup with no bounds or
type validation and still answers 200 `text/html`: with `id=0` the body is
the product template rendered with the first loaded record, and whenever
the lookup yields the undefined record (missing, non-numeric or
out-of-range `id`) the body is the undefined-record render, not a caught
error. -/
theorem product_lookup_unvalidated (st : ServerState) (q : Query) :
    ((handler st "/product".data q).status = 200 ∧
      (handler st "/product".data q).headers =
        [("content-type".data, "text/html".data)]) ∧
    (∀ rec rest, q.id = some ['0'] → st.dataObj = rec :: rest →
      (handler st "/product".data q).body = replaceTemplate st.tempProduct rec) ∧
    (jsIndex st.dataObj q.id = none →
      (handler st "/product".data q).body = undefinedRender st.tempProduct) := by
  rw [handler_product st q]
  refine ⟨⟨rfl, rfl⟩, ?_, ?_⟩
  · intro rec rest hid hdata
    simp only [hid, hdata]
    simp [jsIndex, canonicalIndex]
  · intro hnone
    simp only [hnone]

/-- Witness for C4: with the sample one-record state, `id=0` renders the
first record and a missing `id` gives the undefined-record render. -/
theorem product_lookup_unvalidated_witness :
    (Query.mk (some ['0'])).id = some ['0'] ∧
    sampleState.dataObj = sampleRecord :: [] ∧
    (handler sampleState "/product".data (Query.mk (some ['0']))).body =
      replaceTemplate sampleState.tempProduct sampleRecord ∧
    jsIndex sampleState.dataObj (Query.mk none).id = none ∧
    (handler sampleState "/product".data (Query.mk none)).body =
      undefinedRender sampleState.tempProduct :=
  ⟨rfl, rfl,
    (product_lookup_unvalidated sampleState (Query.mk (some ['0']))).2.1
      sampleRecord [] rfl rfl,
    rfl,
    (product_lookup_unvalidated sampleState (Query.mk none)).2.2 rfl⟩

theorem routeOf_matches (p : Str) : matchesRoute p (routeOf p) := by
  by_cases h1 : p = "/".data ∨ p = "/overview".data
  · simp [routeOf, h1, matchesRoute]
  · by_cases h2 : p = "/product".data
    · simp [routeOf, h1, h2, matchesRoute]
    · by_cases h3 : p = "/api".data
      · simp [routeOf, h1, h2, h3, matchesRoute]
      · push_neg at h1
        simp only [routeOf, if_neg (not_or.mpr h1), if_neg h2, if_neg h3]
        exact ⟨h1.1, h1.2, h2, h3⟩

theorem matches_implies_routeOf (p : Str) (o : RouteOutcome)
    (h : matchesRoute p o) : o = routeOf p := by
  cases o with
  | overview => rcases h with rfl | rfl <;> decide
  | product => rw [h]; decide
  | api => rw [h]; decide
  | notFound =>
    obtain ⟨h1, h2, h3, h4⟩ := h
    simp [routeOf, h1, h2, h3, h4]

theorem handler_eq_outcome (st : ServerState) (p : Str) (q : Query) :
    handler st p q = outcomeResponse st q (routeOf p) := by
  by_cases h1 : p = "/".data ∨ p = "/overview".data
  · simp [handler, routeOf, h1, outcomeResponse]
  · by_cases h2 : p = "/product".data
    · simp [handler, routeOf, h1, h2, outcomeResponse]
    · by_cases h3 : p = "/api".data
      · simp [handler, routeOf, h1, h2, h3, outcomeResponse]
      · simp [handler, routeOf, h1, h2, h3, outcomeResponse]

/-- Claim C1: routing is exact and total: every parsed pathname satisfies the
matching condition of exactly one of the four documented outcomes, and the
handler's response is that outcome's response for every state and query —
no pathname satisfies two branches and none falls through unhandled. -/
theorem route_exact_and_total (p : Str) :
    ∃! o : RouteOutcome, matchesRoute p o ∧
      ∀ (st : ServerState) (q : Query), handler st p q = outcomeResponse st q o := by
  refine ⟨routeOf p, ⟨routeOf_matches p, fun st q => handler_eq_outcome st p q⟩, ?_⟩
  intro o ho
  exact matches_implies_routeOf p o ho.1

theorem readAllSync_none_of_missing (fsys : FS) (f : String)
    (hf : f ∈ syncStartupFiles) (h : fsys f = none) : readAllSync fsys = none := by
  simp only [syncStartupFiles, List.mem_cons, List.not_mem_nil, or_false] at hf
  unfold readAllSync
  rcases hf with rfl | rfl | rfl | rfl | rfl | rfl <;>
    cases hA : fsys "txt/input.txt" <;>
    cases hB : fsys "txt/append.txt" <;>
    cases hC : fsys "templates/template-overview.html" <;>
    cases hD : fsys "templates/template-card.html" <;>
    cases hE : fsys "templates/template-product.html" <;>
    simp_all

theorem readAllSync_isSome (fsys : FS)
    (h : ∀ f ∈ syncStartupFiles, (fsys f).isSome = true) :
    (readAllSync fsys).isSome = true := by
  have h1 := h "txt/input.txt" (by simp [syncStartupFiles])
  have h2 := h "txt/append.txt" (by simp [syncStartupFiles])
  have h3 := h "templates/template-overview.html" (by simp [syncStartupFiles])
  have h4 := h "templates/template-card.html" (by simp [syncStartupFiles])
  have h5 := h "templates/template-product.html" (by simp [syncStartupFiles])
  have h6 := h "dev-data/data.json" (by simp [syncStartupFiles])
  rw [Option.isSome_iff_exists] at h1 h2 h3 h4 h5 h6
  obtain ⟨ti, hti⟩ := h1
  obtain ⟨ta, hta⟩ := h2
  obtain ⟨tov, htov⟩ := h3
  obtain ⟨tc, htc⟩ := h4
  obtain ⟨tp, htp⟩ := h5
  obtain ⟨d, hd⟩ := h6
  simp [readAllSync, hti, hta, htov, htc, htp, hd]

/-- Counterexample to C8 as stated: with every synchronously read file
present but the text pipeline's first file `txt/start.txt` missing, a
start-up file read fails (the pipeline logs `error!`), yet the process
still reaches `server.listen` and serves requests. -/
theorem startup_pipeline_failure_not_fatal :
    fsysNoStart "txt/start.txt" = none ∧
    (startup fsysNoStart fun _ => []).pipelineLog = ["error!"] ∧
    (startup fsysNoStart fun _ => []).serving.isSome = true := by
  refine ⟨rfl, ?_, ?_⟩ <;> rfl

/-- Claim C8, amended: a failure of any synchronous start-up read (the two text
files, the three templates, the JSON data) is fatal — the process never
starts serving; conversely, when all synchronous reads succeed the server
starts serving, regardless of the asynchronous text-pipeline files. -/
theorem startup_sync_failure_fatal (fsys : FS) (parse : Str → List Record) :
    (∀ f ∈ syncStartupFiles, fsys f = none → (startup fsys parse).serving = none) ∧
    ((∀ f ∈ syncStartupFiles, (fsys f).isSome = true) →
      (startup fsys parse).serving.isSome = true) := by
  constructor
  · intro f hf h
    rw [startup, readAllSync_none_of_missing fsys f hf h]
  · intro h
    have hs := readAllSync_isSome fsys h
    rw [Option.isSome_iff_exists] at hs
    obtain ⟨⟨t1, t2, t3, t4, t5, d⟩, hv⟩ := hs
    rw [startup, hv]
    rfl

/-- Witness for the amended C8: a missing card template aborts start-up,
and with every file present the server starts serving. -/
theorem startup_sync_failure_fatal_witness :
    ("templates/template-card.html" ∈ syncStartupFiles) ∧
    fsysNoCard "templates/template-card.html" = none ∧
    (startup fsysNoCard fun _ => []).serving = none ∧
    (∀ f ∈ syncStartupFiles, (fsysAll f).isSome = true) ∧
    (startup fsysAll fun _ => []).serving.isSome = true :=
  ⟨by decide, rfl,
    (startup_sync_failure_fatal fsysNoCard fun _ => []).1
      "templates/template-card.html" (by decide) rfl,
    by decide,
    (startup_sync_failure_fatal fsysAll fun _ => []).2 (by decide)⟩

theorem replaceAllGo_skip (p r : Str) :
    ∀ (s : Str) (n : Nat), replaceAllGo p r n s = replaceAllGo p r 0 (s.drop n) := by
  intro s
  induction s with
  | nil => intro n; cases n <;> rfl
  | cons c rest ih =>
    intro n
    cases n with
    | zero => rfl
    | succ m =>
      show replaceAllGo p r m rest = _
      rw [ih m, List.drop_succ_cons]

theorem replaceAll_cons (p r : Str) (c : Char) (rest : Str) :
    replaceAll p r (c :: rest) =
      if p.isPrefixOf (c :: rest) then r ++ replaceAll p r (rest.drop (p.length - 1))
      else c :: replaceAll p r rest := by
  show replaceAllGo p r 0 (c :: rest) = _
  rw [replaceAllGo, replaceAllGo_skip p r rest (p.length - 1)]
  rfl

theorem isPrefixOf_self_append : ∀ (p t : Str), p.isPrefixOf (p ++ t) = true := by
  intro p t
  induction p with
  | nil => simp [List.isPrefixOf]
  | cons a p2 ih => simp [List.isPrefixOf, ih]

theorem isPrefixOf_cons_ne (a c : Char) (p s : Str) (h : a ≠ c) :
    (a :: p).isPrefixOf (c :: s) = false := by
  have hb : (a == c) = false := beq_eq_false_iff_ne.mpr h
  simp [List.isPrefixOf, hb]

theorem placeholder_ne_nil (f : Str) : placeholder f ≠ [] := by
  simp [placeholder]

theorem legalName_spec (f : Str) (h : legalName f = true) :
    f ≠ [] ∧ ∀ c ∈ f, c ≠ openBrace ∧ c ≠ pctChar ∧ c ≠ closeBrace := by
  simp only [legalName, Bool.and_eq_true, decide_eq_true_eq, List.all_eq_true] at h
  exact ⟨h.1, fun c hc => ⟨(h.2 c hc).1.1, (h.2 c hc).1.2, (h.2 c hc).2⟩⟩

theorem ph_mismatch_aux :
    ∀ (A G t : Str), (∀ c ∈ A, c ≠ pctChar) → (∀ c ∈ G, c ≠ pctChar) → A ≠ G →
      (A ++ [pctChar, closeBrace]).isPrefixOf (G ++ [pctChar, closeBrace] ++ t) = false := by
  intro A
  induction A with
  | nil =>
    intro G t _ hG hne
    cases G with
    | nil => exact absurd rfl hne
    | cons g G2 =>
      have hg : pctChar ≠ g := Ne.symm (hG g (List.mem_cons_self g G2))
      simp only [List.nil_append, List.cons_append]
      exact isPrefixOf_cons_ne _ _ _ _ hg
  | cons a A2 ih =>
    intro G t hA hG hne
    cases G with
    | nil =>
      have ha : a ≠ pctChar := hA a (List.mem_cons_self a A2)
      simp only [List.nil_append, List.cons_append]
      exact isPrefixOf_cons_ne _ _ _ _ ha
    | cons g G2 =>
      by_cases hag : a = g
      · subst hag
        have hne2 : A2 ≠ G2 := fun hEq => hne (by rw [hEq])
        have := ih G2 t (fun c hc => hA c (List.mem_cons_of_mem a hc))
          (fun c hc => hG c (List.mem_cons_of_mem a hc)) hne2
        simpa [List.cons_append, List.isPrefixOf] using this
      · simp only [List.cons_append]
        exact isPrefixOf_cons_ne _ _ _ _ hag

theorem ph_mismatch (A G t : Str) (hA : legalName A = true)
    (hG : legalName G = true) (hne : A ≠ G) :
    (placeholder A).isPrefixOf (placeholder G ++ t) = false := by
  obtain ⟨-, hAc⟩ := legalName_spec A hA
  obtain ⟨-, hGc⟩ := legalName_spec G hG
  have := ph_mismatch_aux A G t (fun c hc => (hAc c hc).2.1)
    (fun c hc => (hGc c hc).2.1) hne
  simpa [placeholder, List.cons_append, List.isPrefixOf] using this

theorem replaceAll_lit_append (A v : Str) :
    ∀ (l t : Str), (∀ c ∈ l, c ≠ openBrace) →
      replaceAll (placeholder A) v (l ++ t) = l ++ replaceAll (placeholder A) v t := by
  intro l
  induction l with
  | nil => intro t _; rfl
  | cons c l2 ih =>
    intro t hl
    have hc : openBrace ≠ c := Ne.symm (hl c (List.mem_cons_self c l2))
    have hpre : (placeholder A).isPrefixOf (c :: (l2 ++ t)) = false := by
      simp only [placeholder]
      exact isPrefixOf_cons_ne _ _ _ _ hc
    rw [List.cons_append, replaceAll_cons]
    simp only [hpre, Bool.false_eq_true, if_false]
    rw [ih t fun c2 hc2 => hl c2 (List.mem_cons_of_mem c hc2), List.cons_append]

theorem replaceAll_self_append (p v t : Str) (hp : p ≠ []) :
    replaceAll p v (p ++ t) = v ++ replaceAll p v t := by
  cases p with
  | nil => exact absurd rfl hp
  | cons a p2 =>
    have h1 : (a :: p2).isPrefixOf (a :: p2 ++ t) = true := isPrefixOf_self_append _ _
    rw [List.cons_append, replaceAll_cons]
    rw [List.cons_append] at h1
    simp only [h1, if_true]
    congr 1
    have h2 : (a :: p2).length - 1 = p2.length := by simp
    rw [h2, List.drop_left]

theorem replaceAll_ph_ne_append (A G v t : Str) (hA : legalName A = true)
    (hG : legalName G = true) (hne : G ≠ A) :
    replaceAll (placeholder A) v (placeholder G ++ t) =
      placeholder G ++ replaceAll (placeholder A) v t := by
  have hpre : (placeholder A).isPrefixOf (placeholder G ++ t) = false :=
    ph_mismatch A G t hA hG (Ne.symm hne)
  obtain ⟨-, hGc⟩ := legalName_spec G hG
  have hl : ∀ c ∈ pctChar :: (G ++ [pctChar, closeBrace]), c ≠ openBrace := by
    intro c hc
    rcases List.mem_cons.mp hc with rfl | hc2
    · decide
    · rcases List.mem_append.mp hc2 with hc3 | hc3
      · exact (hGc c hc3).1
      · rcases List.mem_cons.mp hc3 with rfl | hc4
        · decide
        · rcases List.mem_cons.mp hc4 with rfl | hc5
          · decide
          · exact absurd hc5 (List.not_mem_nil c)

  show replaceAll (placeholder A) v
      (openBrace :: ((pctChar :: (G ++ [pctChar, closeBrace])) ++ t)) = _
  rw [replaceAll_cons]
  have hpre2 : (placeholder A).isPrefixOf
      (openBrace :: ((pctChar :: (G ++ [pctChar, closeBrace])) ++ t)) = false := hpre
  simp only [hpre2, Bool.false_eq_true, if_false]
  rw [replaceAll_lit_append A v _ t hl]
  rfl

theorem segsOk_tail {s : Seg} {rest : List Seg} (h : segsOk (s :: rest) = true) :
    segsOk rest = true := by
  simp only [segsOk, List.all_cons, Bool.and_eq_true] at h ⊢
  exact h.2

theorem segsOk_lit {l : Str} {rest : List Seg} (h : segsOk (.lit l :: rest) = true) :
    ∀ c ∈ l, c ≠ openBrace := by
  simp only [segsOk, List.all_cons, Bool.and_eq_true, List.all_eq_true,
    decide_eq_true_eq] at h
  exact h.1

theorem segsOk_ph {g : Str} {rest : List Seg} (h : segsOk (.ph g :: rest) = true) :
    legalName g = true := by
  simp only [segsOk, List.all_cons, Bool.and_eq_true] at h
  exact h.1

theorem segsOk_map_subst1 (A v : Str) (hv : ∀ c ∈ v, c ≠ openBrace) :
    ∀ (segs : List Seg), segsOk segs = true → segsOk (segs.map (subst1 A v)) = true := by
  intro segs
  induction segs with
  | nil => intro _; rfl
  | cons s rest ih =>
    intro hok
    have hok2 := ih (segsOk_tail hok)
    cases s with
    | lit l =>
      have := segsOk_lit hok
      simp only [List.map_cons, subst1, segsOk, List.all_cons, Bool.and_eq_true]
      exact ⟨by simpa [List.all_eq_true] using this, by simpa [segsOk] using hok2⟩
    | ph g =>
      have hg := segsOk_ph hok
      by_cases hgA : g = A
      · simp only [List.map_cons, subst1, hgA, if_pos rfl, segsOk, List.all_cons,
          Bool.and_eq_true]
        exact ⟨by simpa [List.all_eq_true] using hv, by simpa [segsOk] using hok2⟩
      · simp only [List.map_cons, subst1, if_neg hgA, segsOk, List.all_cons,
          Bool.and_eq_true]
        exact ⟨hg, by simpa [segsOk] using hok2⟩

theorem replaceAll_segRender (A v : Str) (hA : legalName A = true) :
    ∀ (segs : List Seg), segsOk segs = true →
      replaceAll (placeholder A) v (segRender segs) =
        segRender (segs.map (subst1 A v)) := by
  intro segs
  induction segs with
  | nil => intro _; rfl
  | cons s rest ih =>
    intro hok
    have hok2 := segsOk_tail hok
    cases s with
    | lit l =>
      show replaceAll (placeholder A) v (l ++ segRender rest) = _
      rw [replaceAll_lit_append A v l _ (segsOk_lit hok), ih hok2]
      rfl
    | ph g =>
      have hg := segsOk_ph hok
      by_cases hgA : g = A
      · subst hgA
        show replaceAll (placeholder g) v (placeholder g ++ segRender rest) = _
        rw [replaceAll_self_append _ _ _ (placeholder_ne_nil g), ih hok2]
        simp [segRender, subst1]
      · show replaceAll (placeholder A) v (placeholder g ++ segRender rest) = _
        rw [replaceAll_ph_ne_append A g v _ hA hg hgA, ih hok2]
        simp [segRender, subst1, hgA]

theorem replaceTemplate_segRender :
    ∀ (rec : Record) (segs : List Seg), segsOk segs = true →
      (∀ fv ∈ rec, legalName fv.1 = true ∧ ∀ c ∈ fv.2, c ≠ openBrace) →
      replaceTemplate (segRender segs) rec = segRender (stripFields rec segs) := by
  intro rec
  induction rec with
  | nil => intro segs _ _; rfl
  | cons fv rest ih =>
    intro segs hok hrec
    have h1 := hrec fv (List.mem_cons_self fv rest)
    show replaceTemplate (replaceAll (placeholder fv.1) fv.2 (segRender segs)) rest = _
    rw [replaceAll_segRender fv.1 fv.2 h1.1 segs hok,
      ih (segs.map (subst1 fv.1 fv.2)) (segsOk_map_subst1 fv.1 fv.2 h1.2 segs hok)
        fun fv2 h2 => hrec fv2 (List.mem_cons_of_mem fv h2)]
    rfl

theorem occursInB_ph_nil (F : Str) : occursInB (placeholder F) [] = false := rfl

theorem occursInB_lit_append (F : Str) :
    ∀ (l t : Str), (∀ c ∈ l, c ≠ openBrace) →
      occursInB (placeholder F) (l ++ t) = occursInB (placeholder F) t := by
  intro l
  induction l with
  | nil => intro t _; rfl
  | cons c l2 ih =>
    intro t hl
    have hc : openBrace ≠ c := Ne.symm (hl c (List.mem_cons_self c l2))
    have hpre : (placeholder F).isPrefixOf (c :: (l2 ++ t)) = false := by
      simp only [placeholder]
      exact isPrefixOf_cons_ne _ _ _ _ hc
    rw [List.cons_append]
    show ((placeholder F).isPrefixOf (c :: (l2 ++ t)) || occursInB (placeholder F) (l2 ++ t))
      = _
    rw [hpre, Bool.false_or]
    exact ih t fun c2 hc2 => hl c2 (List.mem_cons_of_mem c hc2)

theorem occursInB_ph_ne_append (F G t : Str) (hF : legalName F = true)
    (hG : legalName G = true) (hne : G ≠ F) :
    occursInB (placeholder F) (placeholder G ++ t) = occursInB (placeholder F) t := by
  have hpre : (placeholder F).isPrefixOf (placeholder G ++ t) = false :=
    ph_mismatch F G t hF hG (Ne.symm hne)
  obtain ⟨-, hGc⟩ := legalName_spec G hG
  have hl : ∀ c ∈ pctChar :: (G ++ [pctChar, closeBrace]), c ≠ openBrace := by
    intro c hc
    rcases List.mem_cons.mp hc with rfl | hc2
    · decide
    · rcases List.mem_append.mp hc2 with hc3 | hc3
      · exact (hGc c hc3).1
      · rcases List.mem_cons.mp hc3 with rfl | hc4
        · decide
        · rcases List.mem_cons.mp hc4 with rfl | hc5
          · decide
          · exact absurd hc5 (List.not_mem_nil c)
  show ((placeholder F).isPrefixOf (placeholder G ++ t) ||
    occursInB (placeholder F) ((pctChar :: (G ++ [pctChar, closeBrace])) ++ t)) = _
  rw [hpre, Bool.false_or]
  exact occursInB_lit_append F _ t hl

theorem phNames_cons_lit (l : Str) (rest : List Seg) :
    phNames (.lit l :: rest) = phNames rest := by
  simp [phNames]

theorem phNames_cons_ph (g : Str) (rest : List Seg) :
    phNames (.ph g :: rest) = g :: phNames rest := by
  simp [phNames]

theorem occursInB_segRender_no_ph (F : Str) (hF : legalName F = true) :
    ∀ (segs : List Seg), segsOk segs = true → (∀ g ∈ phNames segs, g ≠ F) →
      occursInB (placeholder F) (segRender segs) = false := by
  intro segs
  induction segs with
  | nil => intro _ _; rfl
  | cons s rest ih =>
    intro hok hnames
    have hok2 := segsOk_tail hok
    cases s with
    | lit l =>
      show occursInB (placeholder F) (l ++ segRender rest) = false
      rw [occursInB_lit_append F l _ (segsOk_lit hok)]
      exact ih hok2 fun g2 hg2 => hnames g2 (by rw [phNames_cons_lit]; exact hg2)
    | ph g =>
      have hg := segsOk_ph hok
      have hgF : g ≠ F := hnames g
        (by rw [phNames_cons_ph]; exact List.mem_cons_self g (phNames rest))
      show occursInB (placeholder F) (placeholder g ++ segRender rest) = false
      rw [occursInB_ph_ne_append F g _ hF hg hgF]
      exact ih hok2 fun g2 hg2 => hnames g2
        (by rw [phNames_cons_ph]; exact List.mem_cons_of_mem g hg2)

theorem ph_mem_map_subst1 {A v g : Str} {segs : List Seg}
    (h : Seg.ph g ∈ segs.map (subst1 A v)) : Seg.ph g ∈ segs ∧ g ≠ A := by
  rw [List.mem_map] at h
  obtain ⟨s, hs, hsub⟩ := h
  cases s with
  | lit l => simp [subst1] at hsub
  | ph g2 =>
    by_cases hg2 : g2 = A
    · simp [subst1, hg2] at hsub
    · simp only [subst1, if_neg hg2, Seg.ph.injEq] at hsub
      subst hsub
      exact ⟨hs, hg2⟩

theorem stripFields_ph_subset :
    ∀ (rec : Record) (segs : List Seg) (g : Str),
      Seg.ph g ∈ stripFields rec segs → Seg.ph g ∈ segs := by
  intro rec
  induction rec with
  | nil => intro segs g h; exact h
  | cons fv rest ih =>
    intro segs g h
    exact (ph_mem_map_subst1 (ih (segs.map (subst1 fv.1 fv.2)) g h)).1

theorem ph_not_mem_stripFields :
    ∀ (rec : Record) (segs : List Seg) (g : Str),
      g ∈ fieldNames rec → Seg.ph g ∉ stripFields rec segs := by
  intro rec
  induction rec with
  | nil => intro segs g hg; simp [fieldNames] at hg
  | cons fv rest ih =>
    intro segs g hg hmem
    have hmem2 : Seg.ph g ∈ stripFields rest (segs.map (subst1 fv.1 fv.2)) := hmem
    have hg2 : g = fv.1 ∨ g ∈ rest.map Prod.fst := by
      simpa [fieldNames] using hg
    rcases hg2 with rfl | hgr
    · exact (ph_mem_map_subst1 (stripFields_ph_subset rest _ _ hmem2)).2 rfl
    · exact ih _ g (by simpa [fieldNames] using hgr) hmem2

theorem segsOk_stripFields :
    ∀ (rec : Record) (segs : List Seg), segsOk segs = true →
      (∀ fv ∈ rec, ∀ c ∈ fv.2, c ≠ openBrace) →
      segsOk (stripFields rec segs) = true := by
  intro rec
  induction rec with
  | nil => intro segs hok _; exact hok
  | cons fv rest ih =>
    intro segs hok hrec
    exact ih _ (segsOk_map_subst1 fv.1 fv.2 (hrec fv (List.mem_cons_self fv rest)) segs hok)
      fun fv2 h2 => hrec fv2 (List.mem_cons_of_mem fv h2)

theorem mem_phNames {g : Str} {segs : List Seg} :
    g ∈ phNames segs ↔ Seg.ph g ∈ segs := by
  simp only [phNames, List.mem_filterMap]
  constructor
  · rintro ⟨s, hs, heq⟩
    cases s with
    | lit l => simp at heq
    | ph g2 => simp only [Option.some.injEq] at heq; subst heq; exact hs
  · intro h
    exact ⟨Seg.ph g, h, rfl⟩

/-- Counterexample to C6 as stated: the template consisting of the single
placeholder for field `A` has all its placeholders among the fields of the
record whose one field `A` carries the placeholder token itself as value;
rendering it leaves (indeed produces) the token `\x7b%A%\x7d` for field `A`
of the record in the output, so the claimed universal absence of tokens for
fields of the record fails. -/
theorem render_leaves_token_counterexample :
    segsOk cexSegs = true ∧
    segRender cexSegs = placeholder ['A'] ∧
    (phNames cexSegs).all (fun g => (fieldNames cexRecord).contains g) = true ∧
    (fieldNames cexRecord).contains ['A'] = true ∧
    occursInB (placeholder ['A'])
      (replaceTemplate (segRender cexSegs) cexRecord) = true := by
  refine ⟨by decide, by decide, by decide, by decide, by decide⟩

/-- Claim C6, amended: for a well-formed template (every opening brace starts a
complete placeholder with a legal field name) and a record whose field
names are legal and whose values contain no opening brace, the renderer
replaces every occurrence of each present field's placeholder by that
field's value (placeholders of absent fields staying verbatim, as the
segment-wise substitution `stripFields` records), and the output contains
no `\x7b%F%\x7d` token for any field `F` of the record.  The restriction on
values is forced by the counterexample: a value containing a placeholder
token re-introduces it into the output. -/
theorem template_render_no_tokens_amended (segs : List Seg) (rec : Record)
    (hok : segsOk segs = true)
    (hrec : ∀ fv ∈ rec, legalName fv.1 = true ∧ ∀ c ∈ fv.2, c ≠ openBrace) :
    replaceTemplate (segRender segs) rec = segRender (stripFields rec segs) ∧
    ∀ f ∈ fieldNames rec,
      occursInB (placeholder f) (replaceTemplate (segRender segs) rec) = false := by
  have heq := replaceTemplate_segRender rec segs hok hrec
  refine ⟨heq, ?_⟩
  intro f hf
  rw [heq]
  obtain ⟨fv, hfv, rfl⟩ : ∃ fv ∈ rec, fv.1 = f := by
    simpa [fieldNames, List.mem_map] using hf
  refine occursInB_segRender_no_ph fv.1 ((hrec fv hfv).1) (stripFields rec segs)
    (segsOk_stripFields rec segs hok fun fv2 h2 => (hrec fv2 h2).2) ?_
  intro g hgn hgf
  subst hgf
  exact ph_not_mem_stripFields rec segs fv.1 hf (mem_phNames.mp hgn)

/-- Witness for the amended C6 at a concrete well-formed template and
record. -/
theorem template_render_no_tokens_amended_witness :
    segsOk [Seg.lit "Hello ".data, Seg.ph "NAME".data, Seg.lit "!".data] = true ∧
    (∀ fv ∈ ([("NAME".data, "Bob".data)] : Record),
      legalName fv.1 = true ∧ ∀ c ∈ fv.2, c ≠ openBrace) ∧
    replaceTemplate
        (segRender [Seg.lit "Hello ".data, Seg.ph "NAME".data, Seg.lit "!".data])
        [("NAME".data, "Bob".data)] =
      segRender (stripFields [("NAME".data, "Bob".data)]
        [Seg.lit "Hello ".data, Seg.ph "NAME".data, Seg.lit "!".data]) :=
  ⟨by decide, by decide,
    (template_render_no_tokens_amended
      [Seg.lit "Hello ".data, Seg.ph "NAME".data, Seg.lit "!".data]
      [("NAME".data, "Bob".data)] (by decide) (by decide)).1⟩

end NodeFarm
